import Mathlib

/-!
Verification development for the Micro-AI-Code-Reviewer repository.

The JavaScript sources are shallowly embedded over `List Char` (a JS string
is modelled as its list of characters).  JS `number` arithmetic on the
integer-valued metrics is modelled exactly over `ℚ`/`ℤ`/`ℕ`;
`Math.round x` is modelled as `⌊x + 1/2⌋` (round half toward +∞, which is
JS semantics), `Math.ceil`/`Math.max`/`Math.min` by their exact
counterparts.  JS regular expressions used by the sources are embedded via
a small executable matcher (`reMatch`/`countRe`) over an explicit pattern
AST; `String.prototype.match(re /g)` returning `null`/an array is modelled
by the count of non-overlapping leftmost matches.  All recursion is
structural (fuel-based where needed) so every definition evaluates by
`decide`/`rfl`.
-/

/-! ### A small regular-expression engine

Pattern atoms cover exactly the constructs appearing in the repository's
regexes: literal runs, character classes with a minimum repetition count
(`X*` = min 0, `X+` = min 1, `X\x7b120,\x7d` = min 120) that are otherwise
unbounded and greedy, alternation, and the word-boundary assertion `\b`.
`clsTry` is internal backtracking state (the count currently being tried
for a class, descending greedily), never written in a source pattern.
-/

inductive RItem where
  | lit : List Char → RItem
  | cls : (Char → Bool) → Nat → RItem
  | alt : List RItem → List RItem → RItem
  | wb : RItem
  | clsTry : (Char → Bool) → Nat → Nat → RItem

/-- JS `\w`: ASCII letters, digits and underscore. -/
def isWordChar (c : Char) : Bool := c.isAlphanum || c == '_'

/-- JS `\s`, restricted to the ASCII whitespace characters. -/
def isSpaceChar (c : Char) : Bool :=
  c == ' ' || c == '\t' || c == '\n' || c == '\r' || c == '\x0b' || c == '\x0c'

/-- JS `.` (no `s` flag): any character except a line terminator. -/
def isDotChar (c : Char) : Bool := !(c == '\n' || c == '\r')

def optWord : Option Char → Bool
  | none => false
  | some c => isWordChar c

/-- Length of the maximal prefix of `l` whose characters satisfy `p`. -/
def countPrefixRun (p : Char → Bool) : List Char → Nat
  | [] => 0
  | c :: cs => if p c then countPrefixRun p cs + 1 else 0

/-- The character preceding the position reached after consuming `k`
characters of `l` (used to evaluate later `\b` assertions). -/
def advPrev (prev : Option Char) (l : List Char) (k : Nat) : Option Char :=
  match (l.take k).getLast? with
  | some c => some c
  | none => prev

/-- Size of a pattern item, used only to budget matcher fuel.  Alternation
branches in every embedded pattern contain only plain atoms (no nested
alternation), so counting their items is an exact atom count. -/
def rItemSize : RItem → Nat
  | .alt a b => 1 + a.length + b.length
  | _ => 1

def reSize (re : List RItem) : Nat := (re.map rItemSize).sum

/-- Anchored backtracking match of the item sequence at the head of `l`
(`prev` is the character just before the current position, for `\b`).
Returns the remaining suffix after a successful match.  Greedy classes try
the longest repetition first; alternation tries the left branch first —
exactly JS semantics.  Recursion is structural on `fuel`. -/
def reMatch : Nat → List RItem → Option Char → List Char → Option (List Char)
  | 0, _, _, _ => none
  | _ + 1, [], _, l => some l
  | fuel + 1, .lit cs :: rest, prev, l =>
      if cs.isPrefixOf l then
        reMatch fuel rest (advPrev prev l cs.length) (l.drop cs.length)
      else none
  | fuel + 1, .wb :: rest, prev, l =>
      if optWord prev != optWord l.head? then reMatch fuel rest prev l else none
  | fuel + 1, .alt a b :: rest, prev, l =>
      match reMatch fuel (a ++ rest) prev l with
      | some r => some r
      | none => reMatch fuel (b ++ rest) prev l
  | fuel + 1, .cls p m :: rest, prev, l =>
      let run := countPrefixRun p l
      if run < m then none else reMatch fuel (.clsTry p m run :: rest) prev l
  | fuel + 1, .clsTry p m k :: rest, prev, l =>
      match reMatch fuel rest (advPrev prev l k) (l.drop k) with
      | some r => some r
      | none => if m < k then reMatch fuel (.clsTry p m (k - 1) :: rest) prev l else none

/-- A fuel budget that dominates the backtracking depth of `reMatch`. -/
def reFuel (re : List RItem) (l : List Char) : Nat :=
  (reSize re + 2) * (l.length + 4)

/-- Count the non-overlapping leftmost matches of `re` in `l`, scanning
left to right and resuming after each match — the length of the array
returned by JS `l.match(re)` with the `g` flag (0 when it returns `null`).
-/
def countReAux : Nat → List RItem → Option Char → List Char → Nat
  | 0, _, _, _ => 0
  | fuel + 1, re, prev, l =>
      match reMatch (reFuel re l) re prev l with
      | some rest =>
          let consumed := l.length - rest.length
          if consumed == 0 then
            match l with
            | [] => 0
            | c :: cs => countReAux fuel re (some c) cs
          else 1 + countReAux fuel re (advPrev prev l consumed) rest
      | none =>
          match l with
          | [] => 0
          | c :: cs => countReAux fuel re (some c) cs

def countRe (re : List RItem) (code : List Char) : Nat :=
  countReAux (code.length + 1) re none code

/-- JS `String.prototype.includes`: `sub` occurs as a contiguous substring. -/
def includesSub (sub : List Char) : List Char → Bool
  | [] => sub.isEmpty
  | c :: cs => sub.isPrefixOf (c :: cs) || includesSub sub cs

/-- JS `Math.round`: round half toward positive infinity. -/
def roundHalfUp (x : ℚ) : ℤ := ⌊x + 1 / 2⌋

/-! ### Analysis service (the `analysisService` module, src/unnamed/part_001)

Embedded from `getCodeQualityScore`, `getSecurityIssues`,
`checkDependencies`, `calculateComplexity`, `calculateDuplication` and
`calculateReadability` of the advanced code analysis service.
-/

/-- JS `code.split(sep)` for a single-character separator. -/
def splitOnChar (sep : Char) : List Char → List (List Char)
  | [] => [[]]
  | c :: cs =>
      if c == sep then [] :: splitOnChar sep cs
      else
        match splitOnChar sep cs with
        | [] => [[c]]
        | h :: t => (c :: h) :: t

/-- The regex `new RegExp('\\b' + keyword + '\\b', 'g')`. -/
def wordRegex (kw : List Char) : List RItem := [.wb, .lit kw, .wb]

def controlFlowKeywords : List (List Char) :=
  ["if".data, "for".data, "while".data, "case".data, "catch".data]

/-- `calculateComplexity`: base 1, plus the whole-word match count of each
control-flow keyword, times 10, capped at 100. -/
def calculateComplexity (code : List Char) : Nat :=
  let complexity :=
    controlFlowKeywords.foldl (fun acc kw => acc + countRe (wordRegex kw) code) 1
  min (complexity * 10) 100

/-- `calculateDuplication`: percentage of non-unique lines, rounded. -/
def calculateDuplication (code : List Char) : ℤ :=
  let lines := splitOnChar '\n' code
  let uniqueLines := lines.dedup
  roundHalfUp ((((lines.length : ℚ) - (uniqueLines.length : ℚ)) / (lines.length : ℚ)) * 100)

/-- `calculateReadability`: `100 - min(avgLineLength, 100)`, an extra `-20`
when the average line length is below 10, rounded, floored at 0. -/
def calculateReadability (code : List Char) : ℤ :=
  let lines := splitOnChar '\n' code
  let avgLineLength : ℚ := (code.length : ℚ) / (lines.length : ℚ)
  let readabilityScore : ℚ := 100 - min avgLineLength 100
  let readabilityScore := if avgLineLength < 10 then readabilityScore - 20 else readabilityScore
  max (roundHalfUp readabilityScore) 0

structure QualityMetrics where
  linesOfCode : Nat
  complexity : Nat
  duplication : ℤ
  readability : ℤ
deriving DecidableEq

structure QualityResult where
  score : ℤ
  metrics : Option QualityMetrics
deriving DecidableEq

/-- The `try` body of `getCodeQualityScore`.  On a string input every step
is total, so the body never signals; the `Except` layer records where a
thrown JS exception would surface. -/
def getCodeQualityScoreBody (code : List Char) : Except String QualityResult :=
  let linesOfCode := (splitOnChar '\n' code).length
  let complexity := calculateComplexity code
  let duplication := calculateDuplication code
  let readability := calculateReadability code
  let qualityScore : ℤ :=
    roundHalfUp ((readability : ℚ) * 0.4 + (complexity : ℚ) * 0.3 + (100 - (duplication : ℚ)) * 0.3)
  Except.ok
    { score := qualityScore
      metrics := some
        { linesOfCode := linesOfCode
          complexity := complexity
          duplication := duplication
          readability := readability } }

/-- `getCodeQualityScore` with its `catch`: any signalled error is mapped
to the fallback `\x7b score: 0, metrics: \x7b\x7d \x7d`. -/
def getCodeQualityScore (code : List Char) : QualityResult :=
  match getCodeQualityScoreBody code with
  | .ok r => r
  | .error _ => { score := 0, metrics := none }

structure SecIssue where
  type : String
  description : String
  severity : String
  suggestion : String
deriving DecidableEq

def xssIssue : SecIssue :=
  { type := "XSS Vulnerability"
    description := "Potential cross-site scripting vulnerability detected"
    severity := "High"
    suggestion := "Use safer alternatives like textContent or sanitize user inputs" }

def sqlInjectionIssue : SecIssue :=
  { type := "SQL Injection"
    description := "Potential SQL injection vulnerability detected"
    severity := "High"
    suggestion := "Use parameterized queries or ORM methods" }

def openRedirectIssue : SecIssue :=
  { type := "Open Redirect"
    description := "Potential open redirect vulnerability detected"
    severity := "Medium"
    suggestion := "Validate redirect URLs against whitelist" }

/-- `getSecurityIssues`: three independent substring checks, each pushing
one issue when its condition holds. -/
def getSecurityIssues (code : List Char) : List SecIssue :=
  (if includesSub ".innerHTML".data code || includesSub "eval(".data code
   then [xssIssue] else []) ++
  (if includesSub "+".data code &&
      (includesSub "SELECT".data code || includesSub "INSERT".data code)
   then [sqlInjectionIssue] else []) ++
  (if includesSub "window.location".data code || includesSub "redirect(".data code
   then [openRedirectIssue] else [])

def deprecatedBufferIssue : SecIssue :=
  { type := "Deprecated API"
    description := "Buffer() constructor is deprecated and unsafe"
    severity := "High"
    suggestion := "Use Buffer.alloc() or Buffer.from() instead" }

def checkDependencies (code : List Char) : List SecIssue :=
  if includesSub "new Buffer(".data code then [deprecatedBufferIssue] else []

/-! ### Result formatter (`formatter` utility module)

Embedded from `formatIssuesWithSeverity`, `structureCodeReviewOutput`,
`createStructuredOutput` and `countIssuesBySeverity`.  The `id` and
`timestamp` fields of `createStructuredOutput` (wall-clock values) are
omitted; no claim mentions them.
-/

/-- The spread result of `formatIssuesWithSeverity`: the original issue
fields plus a `severityTag`. -/
structure TaggedIssue where
  issue : SecIssue
  severityTag : String
deriving DecidableEq

def formatIssuesWithSeverity (issues : List SecIssue) : List TaggedIssue :=
  issues.map fun issue => { issue := issue, severityTag := "[" ++ issue.severity ++ "]" }

/-- The `aiReview` input: each partition may be absent (JS falsy check). -/
structure AIReview where
  bugs : Option (List SecIssue)
  performance : Option (List SecIssue)
  refactor : Option (List SecIssue)
deriving DecidableEq

structure ReviewData where
  qualityScore : QualityResult
  securityIssues : List SecIssue
  dependencyIssues : List SecIssue
  aiReview : AIReview
deriving DecidableEq

structure AnalysisSummary where
  qualityScore : ℤ
  totalIssues : Nat
deriving DecidableEq

structure AIAnalysis where
  bugs : List TaggedIssue
  performance : List TaggedIssue
  refactor : List TaggedIssue
deriving DecidableEq

structure Analysis where
  summary : AnalysisSummary
  qualityMetrics : Option QualityMetrics
  security : List TaggedIssue
  dependencies : List TaggedIssue
  aiAnalysis : AIAnalysis
deriving DecidableEq

def structureCodeReviewOutput (reviewData : ReviewData) : Analysis :=
  { summary :=
      { qualityScore := reviewData.qualityScore.score
        totalIssues :=
          reviewData.securityIssues.length + reviewData.dependencyIssues.length +
            (match reviewData.aiReview.bugs with
             | some bugs => bugs.length
             | none => 0) }
    qualityMetrics := reviewData.qualityScore.metrics
    security := formatIssuesWithSeverity reviewData.securityIssues
    dependencies := formatIssuesWithSeverity reviewData.dependencyIssues
    aiAnalysis :=
      { bugs :=
          match reviewData.aiReview.bugs with
          | some bugs => formatIssuesWithSeverity bugs
          | none => []
        performance :=
          match reviewData.aiReview.performance with
          | some performance => formatIssuesWithSeverity performance
          | none => []
        refactor :=
          match reviewData.aiReview.refactor with
          | some refactor => formatIssuesWithSeverity refactor
          | none => [] } }

/-- `countIssuesBySeverity`: one filtered count per partition, summed over
security, dependencies and the three AI partitions. -/
def countIssuesBySeverity (analysis : Analysis) (severity : String) : Nat :=
  (analysis.security.filter (fun i => i.issue.severity == severity)).length +
  (analysis.dependencies.filter (fun i => i.issue.severity == severity)).length +
  (analysis.aiAnalysis.bugs.filter (fun i => i.issue.severity == severity)).length +
  (analysis.aiAnalysis.performance.filter (fun i => i.issue.severity == severity)).length +
  (analysis.aiAnalysis.refactor.filter (fun i => i.issue.severity == severity)).length

structure SeverityBreakdown where
  high : Nat
  medium : Nat
  low : Nat
deriving DecidableEq

structure StructuredSummary where
  totalIssues : Nat
  qualityScore : ℤ
  severityBreakdown : SeverityBreakdown
deriving DecidableEq

/-- A detail entry of `createStructuredOutput`: the (already tagged) issue
spread together with its partition label (`Security`, `Dependency`, `Bug`,
`Performance` or `Refactor`). -/
structure DetailIssue where
  issue : TaggedIssue
  type : String
deriving DecidableEq

structure StructuredDetails where
  quality : Option QualityMetrics
  security : List DetailIssue
  dependencies : List DetailIssue
  aiBugs : List DetailIssue
  aiPerformance : List DetailIssue
  aiRefactor : List DetailIssue
deriving DecidableEq

structure StructuredOutput where
  summary : StructuredSummary
  details : StructuredDetails
deriving DecidableEq

def createStructuredOutput (analysis : Analysis) : StructuredOutput :=
  { summary :=
      { totalIssues := analysis.summary.totalIssues
        qualityScore := analysis.summary.qualityScore
        severityBreakdown :=
          { high := countIssuesBySeverity analysis "High"
            medium := countIssuesBySeverity analysis "Medium"
            low := countIssuesBySeverity analysis "Low" } }
    details :=
      { quality := analysis.qualityMetrics
        security := analysis.security.map fun issue => { issue := issue, type := "Security" }
        dependencies := analysis.dependencies.map fun issue => { issue := issue, type := "Dependency" }
        aiBugs := analysis.aiAnalysis.bugs.map fun issue => { issue := issue, type := "Bug" }
        aiPerformance := analysis.aiAnalysis.performance.map fun issue => { issue := issue, type := "Performance" }
        aiRefactor := analysis.aiAnalysis.refactor.map fun issue => { issue := issue, type := "Refactor" } } }

/-! ### Custom style rules (`codeStyleEnforcement` service)

Embedded from `checkCustomStyleRules`; the ESLint/Prettier paths invoke
external processes and are outside the deterministic core.
-/

structure StyleRule where
  name : String
  pattern : List RItem
  severity : String
  description : String

structure StyleIssue where
  type : String
  rule : String
  description : String
  severity : String
  count : Nat
deriving DecidableEq

def javascriptStyleRules : List StyleRule :=
  [ { name := "no-console"
      pattern := [.wb, .lit "console.".data,
                  .alt [.lit "log".data]
                    [.alt [.lit "warn".data]
                      [.alt [.lit "error".data] [.alt [.lit "info".data] [.lit "debug".data]]]],
                  .cls isSpaceChar 0, .lit "(".data]
      severity := "Medium"
      description := "Avoid using console statements in production code" }
  , { name := "max-line-length"
      pattern := [.cls isDotChar 120]
      severity := "Low"
      description := "Line length exceeds 120 characters" }
  , { name := "no-var"
      pattern := [.wb, .lit "var".data, .cls isSpaceChar 1]
      severity := "Medium"
      description := "Prefer const or let over var" } ]

def pythonStyleRules : List StyleRule :=
  [ { name := "line-length"
      pattern := [.cls isDotChar 80]
      severity := "Low"
      description := "Line length exceeds 80 characters" }
  , { name := "no-exec"
      pattern := [.wb, .lit "exec".data, .cls isSpaceChar 0, .lit "(".data]
      severity := "High"
      description := "Avoid using exec function" } ]

def javaStyleRules : List StyleRule :=
  [ { name := "system-out"
      pattern := [.lit "System.".data, .alt [.lit "out".data] [.lit "err".data], .lit ".print".data]
      severity := "Medium"
      description := "Avoid using System.out.println in production code" } ]

/-- The `rules` lookup table of `checkCustomStyleRules`. -/
def styleRulesFor (language : String) : Option (List StyleRule) :=
  if language == "javascript" then some javascriptStyleRules
  else if language == "python" then some pythonStyleRules
  else if language == "java" then some javaStyleRules
  else none

/-- `checkCustomStyleRules`: `rules[language] || rules.javascript`, then one
issue per rule with a positive match count. -/
def checkCustomStyleRules (code : List Char) (language : String) : List StyleIssue :=
  let languageRules := (styleRulesFor language).getD javascriptStyleRules
  languageRules.filterMap fun rule =>
    let c := countRe rule.pattern code
    if 0 < c then
      some { type := "Custom", rule := rule.name, description := rule.description,
             severity := rule.severity, count := c }
    else none

/-! ### Performance benchmark service

Embedded from `estimatePerformanceImpact`, `analyzeCodeForPerformance`,
`estimateNestedDepth`, `estimateMemoryUsage`, `calculateComplexityScore`,
`calculateImprovements` and `calculatePerformanceGain`.
-/

structure PerformanceMetrics where
  loopComplexity : Nat
  functionCalls : Nat
  nestedDepth : Nat
  memoryUsage : Nat
  complexityScore : ℚ
deriving DecidableEq

/-- The regex `/\b(for|while)\s*\(/g`. -/
def loopRegex : List RItem :=
  [.wb, .alt [.lit "for".data] [.lit "while".data], .cls isSpaceChar 0, .lit "(".data]

/-- The regex `/\w+\s*\(/g`. -/
def functionCallRegex : List RItem :=
  [.cls isWordChar 1, .cls isSpaceChar 0, .lit "(".data]

/-- The regex `/\[[^\]]*\]/g`. -/
def arrayLiteralRegex : List RItem :=
  [.lit "[".data, .cls (fun c => !(c == ']')) 0, .lit "]".data]

/-- The regex matching a brace-delimited run (object literals). -/
def objectLiteralRegex : List RItem :=
  [.lit "\x7b".data, .cls (fun c => !(c == '\x7d')) 0, .lit "\x7d".data]

/-- `estimateNestedDepth`: running brace depth, clamped at 0, maximum taken. -/
def estimateNestedDepth (code : List Char) : Nat :=
  (code.foldl
    (fun (st : Nat × Nat) c =>
      if c == '\x7b' then (st.1 + 1, max st.2 (st.1 + 1))
      else if c == '\x7d' then (st.1 - 1, st.2)
      else st)
    (0, 0)).2

def estimateMemoryUsage (code : List Char) : Nat :=
  countRe arrayLiteralRegex code * 10 + countRe objectLiteralRegex code * 15

def calculateComplexityScoreOf (loopComplexity functionCalls nestedDepth memoryUsage : Nat) : ℚ :=
  (loopComplexity : ℚ) * 10 + (functionCalls : ℚ) * 2 + (nestedDepth : ℚ) * 15 +
    (memoryUsage : ℚ) * 0.5

def analyzeCodeForPerformance (code : List Char) : PerformanceMetrics :=
  let loopComplexity := countRe loopRegex code
  let functionCalls := countRe functionCallRegex code
  let nestedDepth := estimateNestedDepth code
  let memoryUsage := estimateMemoryUsage code
  { loopComplexity := loopComplexity
    functionCalls := functionCalls
    nestedDepth := nestedDepth
    memoryUsage := memoryUsage
    complexityScore := calculateComplexityScoreOf loopComplexity functionCalls nestedDepth memoryUsage }

structure Improvements where
  loopReduction : ℤ
  callReduction : ℤ
  depthReduction : ℤ
  memoryReduction : ℤ
deriving DecidableEq

def calculateImprovements (original optimized : PerformanceMetrics) : Improvements :=
  { loopReduction := (original.loopComplexity : ℤ) - (optimized.loopComplexity : ℤ)
    callReduction := (original.functionCalls : ℤ) - (optimized.functionCalls : ℤ)
    depthReduction := (original.nestedDepth : ℤ) - (optimized.nestedDepth : ℤ)
    memoryReduction := (original.memoryUsage : ℤ) - (optimized.memoryUsage : ℤ) }

/-- `Math.round(gain * 100) / 100`. -/
def roundTo2 (x : ℚ) : ℚ := (roundHalfUp (x * 100) : ℚ) / 100

def calculatePerformanceGain (original optimized : PerformanceMetrics) : ℚ :=
  if original.complexityScore = 0 then 0
  else
    max 0 (roundTo2
      ((original.complexityScore - optimized.complexityScore) / original.complexityScore * 100))

structure PerformanceComparison where
  before : PerformanceMetrics
  after : PerformanceMetrics
  improvements : Improvements
  estimatedPerformanceGain : ℚ
deriving DecidableEq

def estimatePerformanceImpact (originalCode optimizedCode : List Char) : PerformanceComparison :=
  let originalMetrics := analyzeCodeForPerformance originalCode
  let optimizedMetrics := analyzeCodeForPerformance optimizedCode
  { before := originalMetrics
    after := optimizedMetrics
    improvements := calculateImprovements originalMetrics optimizedMetrics
    estimatedPerformanceGain := calculatePerformanceGain originalMetrics optimizedMetrics }

/-! ### Multi-language analyzer (`multiLanguageAnalyzer` service)

Embedded from `languageRules`, `analyzeLanguageSpecific` and
`getSeverityForPattern`.
-/

structure LangPattern where
  name : String
  pattern : List RItem

def javascriptPatterns : List LangPattern :=
  [ { name := "asyncAwait"
      pattern := [.alt
        [.wb, .lit "async".data, .cls isSpaceChar 1, .lit "function".data, .wb]
        [.wb, .lit "async".data, .cls isSpaceChar 1, .lit "(".data,
         .cls (fun c => !(c == ')')) 0, .lit ")".data, .cls isSpaceChar 0, .lit "=>".data]] }
  , { name := "promiseChaining"
      pattern := [.alt [.lit ".then(".data] [.lit ".catch(".data]] }
  , { name := "varUsage", pattern := [.wb, .lit "var".data, .wb] }
  , { name := "consoleLog", pattern := [.wb, .lit "console.log".data, .wb] } ]

def typescriptPatterns : List LangPattern :=
  [ { name := "anyType", pattern := [.lit ":".data, .cls isSpaceChar 0, .lit "any".data, .wb] }
  , { name := "explicitAny", pattern := [.lit "<any>".data] }
  , { name := "nonNullAssertion", pattern := [.lit "!.".data] }
  , { name := "tsIgnore", pattern := [.lit "@ts-ignore".data] } ]

def pythonPatterns : List LangPattern :=
  [ { name := "globalUsage", pattern := [.wb, .lit "global".data, .wb] }
  , { name := "execUsage", pattern := [.wb, .lit "exec".data, .wb] }
  , { name := "evalUsage", pattern := [.wb, .lit "eval".data, .wb] }
  , { name := "mutableDefault"
      pattern := [.lit "def".data, .cls isSpaceChar 1, .cls isWordChar 1, .lit "(".data,
                  .cls (fun c => !(c == ')')) 0, .lit "=".data, .cls isSpaceChar 0,
                  .lit "[".data, .cls isDotChar 0, .lit "]".data, .cls isDotChar 0,
                  .lit ")".data] } ]

def javaPatterns : List LangPattern :=
  [ { name := "systemOut", pattern := [.lit "System.out.print".data] }
  , { name := "rawTypes", pattern := [.lit "List<".data, .cls isWordChar 1, .lit ">".data] }
  , { name := "stringConcat", pattern := [.lit "+".data, .cls isSpaceChar 0, .lit "\"".data] }
  , { name := "nullCheck", pattern := [.lit "==".data, .cls isSpaceChar 0, .lit "null".data] } ]

/-- The `languageRules` lookup object (key → its `patterns`; the
`extensions` lists feed only `detectLanguage`, which no claim involves). -/
def languageRulesFor (language : String) : Option (List LangPattern) :=
  if language == "javascript" then some javascriptPatterns
  else if language == "typescript" then some typescriptPatterns
  else if language == "python" then some pythonPatterns
  else if language == "java" then some javaPatterns
  else none

def getSeverityForPattern (patternName : String) : String :=
  if patternName == "varUsage" then "Medium"
  else if patternName == "consoleLog" then "Low"
  else if patternName == "anyType" then "Medium"
  else if patternName == "tsIgnore" then "High"
  else if patternName == "execUsage" then "High"
  else if patternName == "evalUsage" then "High"
  else if patternName == "systemOut" then "Medium"
  else if patternName == "mutableDefault" then "Medium"
  else "Low"

structure LangIssue where
  type : String
  description : String
  count : Nat
  severity : String
deriving DecidableEq

/-- `analyzeLanguageSpecific`: when `languageRules[language]` is absent the
body is skipped and the empty issue list is returned; otherwise one issue
per pattern with a positive match count, in catalog order. -/
def analyzeLanguageSpecific (code : List Char) (language : String) : List LangIssue :=
  match languageRulesFor language with
  | none => []
  | some rules =>
      rules.filterMap fun p =>
        let c := countRe p.pattern code
        if 0 < c then
          some { type := p.name
                 description := "Detected " ++ p.name ++ " pattern"
                 count := c
                 severity := getSeverityForPattern p.name }
        else none

/-! ### Team collaboration insights (`teamInsights` service)

Embedded from `extractDevelopers`, `findCommonIssues` and
`storeTeamInsights`.
-/

/-- A prior issue inside a pull-request's `analysis.issues`; only its
`type` field is consulted by the insight analysis. -/
structure RecordedIssue where
  type : String
deriving DecidableEq

/-- One element of `prData.pullRequests`: the author plus
`pr.analysis && pr.analysis.issues` (absent when either is missing). -/
structure PRRecord where
  author : String
  issues : Option (List RecordedIssue)
deriving DecidableEq

structure Developer where
  name : String
  prCount : Nat
  issues : List RecordedIssue
  patterns : List String
deriving DecidableEq

/-- JS `Set.add`: append when not already present (insertion order kept). -/
def setAdd (s : List String) (x : String) : List String :=
  if s.contains x then s else s ++ [x]

/-- Processing of one PR inside `extractDevelopers`: bump the PR count,
append the PR's issues, and add each truthy `issue.type` to the pattern
set. -/
def updateDeveloper (d : Developer) (pr : PRRecord) : Developer :=
  let issues := (pr.issues).getD []
  { d with
    prCount := d.prCount + 1
    issues := d.issues ++ issues
    patterns := issues.foldl (fun s i => if i.type == "" then s else setAdd s i.type) d.patterns }

/-- One step of the `prData.pullRequests.forEach` loop over the `developers`
map (JS `Map` keeps insertion order; a new author is appended). -/
def addPRRecord (devs : List Developer) (pr : PRRecord) : List Developer :=
  if devs.any (fun d => d.name == pr.author) then
    devs.map fun d => if d.name == pr.author then updateDeveloper d pr else d
  else
    devs ++ [updateDeveloper
      { name := pr.author, prCount := 0, issues := [], patterns := [] } pr]

def extractDevelopers (pullRequests : List PRRecord) : List Developer :=
  pullRequests.foldl addPRRecord []

/-- `issue.type || 'unknown'` (the empty string is falsy). -/
def normalizeType (t : String) : String := if t == "" then "unknown" else t

/-- JS `Map.set(key, (get(key) || 0) + 1)`: existing keys keep their
position, new keys are appended. -/
def bumpCount : List (String × Nat) → String → List (String × Nat)
  | [], k => [(k, 1)]
  | (k', c) :: rest, k =>
      if k' == k then (k', c + 1) :: rest else (k', c) :: bumpCount rest k

/-- The `issueFrequency` map: one `bumpCount` per issue record of every
developer, in traversal order. -/
def buildFreq (developers : List Developer) : List (String × Nat) :=
  developers.foldl
    (fun m d => d.issues.foldl (fun m i => bumpCount m (normalizeType i.type)) m) []

/-- `Math.ceil(developers.length * 0.3)` — exact on naturals. -/
def commonThreshold (developers : List Developer) : Nat :=
  (3 * developers.length + 9) / 10

structure CommonIssue where
  type : String
  frequency : Nat
  percentage : ℤ
deriving DecidableEq

/-- `findCommonIssues`: push every frequency entry meeting the threshold,
then `sort((a, b) => b.frequency - a.frequency)` — a stable descending
sort (ES2019 `Array#sort` is stable), modelled by a stable insertion sort.
-/
def findCommonIssues (developers : List Developer) : List CommonIssue :=
  let issueFrequency := buildFreq developers
  let threshold := commonThreshold developers
  let commonIssues := issueFrequency.filterMap fun (tc : String × Nat) =>
    if threshold ≤ tc.2 then
      some { type := tc.1
             frequency := tc.2
             percentage := roundHalfUp ((tc.2 : ℚ) / (developers.length : ℚ) * 100) }
    else none
  commonIssues.insertionSort fun a b => b.frequency ≤ a.frequency

/-- `storeTeamInsights` acting on the `teamInsightsStorage` map: push onto
the team's history, then keep only the last 10 (`slice(-10)`).  The stored
entries are opaque insight values. -/
def storeTeamInsights {α : Type} (storage : String → List α) (teamId : String) (insight : α) :
    String → List α :=
  fun id =>
    if id == teamId then
      let teamHistory := storage teamId ++ [insight]
      if 10 < teamHistory.length then teamHistory.drop (teamHistory.length - 10)
      else teamHistory
    else storage id

/-- A whole sequence of insight insertions applied to the initially empty
storage. -/
def applyInsertions {α : Type} (inserts : List (String × α)) : String → List α :=
  inserts.foldl (fun st p => storeTeamInsights st p.1 p.2) (fun _ => [])

/-! ### Derived notions used by the statements -/

/-- `Map.get(key) || 0` on the association-list model of a JS `Map`. -/
def lookupCount : List (String × Nat) → String → Nat
  | [], _ => 0
  | (k', c) :: rest, k => if k' == k then c else lookupCount rest k

def keysOf (m : List (String × Nat)) : List String := m.map Prod.fst

/-- The normalized types of all issue records, across all developers, in
traversal order. -/
def devTypeKeys (developers : List Developer) : List String :=
  ((developers.map (fun d => d.issues)).flatten).map (fun i => normalizeType i.type)

/-- Total number of issue records of normalized type `t` across all
developers' accumulated issue lists (the raw occurrence count). -/
def occCount (developers : List Developer) (t : String) : Nat :=
  (((developers.map (fun d => d.issues)).flatten).filter
    (fun i => normalizeType i.type == t)).length

/-- A batch of review records with 10 distinct authors in which the issue
type `dup` occurs twice for each of exactly two authors. -/
def twoAuthorBatch : List PRRecord :=
  [ { author := "a1", issues := some [{ type := "dup" }, { type := "dup" }] }
  , { author := "a2", issues := some [{ type := "dup" }, { type := "dup" }] }
  , { author := "a3", issues := some [] }
  , { author := "a4", issues := some [] }
  , { author := "a5", issues := some [] }
  , { author := "a6", issues := some [] }
  , { author := "a7", issues := some [] }
  , { author := "a8", issues := some [] }
  , { author := "a9", issues := some [] }
  , { author := "a10", issues := some [] } ]

/-! ### Supporting lemmas -/

theorem roundHalfUp_eq_of {x : ℚ} {z : ℤ} (h1 : (z : ℚ) ≤ x + 1 / 2)
    (h2 : x + 1 / 2 < z + 1) : roundHalfUp x = z := by
  unfold roundHalfUp
  refine Int.floor_eq_iff.mpr ⟨h1, ?_⟩
  have : ((z + 1 : ℤ) : ℚ) = (z : ℚ) + 1 := by push_cast; ring
  linarith

theorem roundHalfUp_nonneg {x : ℚ} (h : 0 ≤ x) : 0 ≤ roundHalfUp x := by
  unfold roundHalfUp
  exact Int.le_floor.mpr (by exact_mod_cast (by linarith : (0 : ℚ) ≤ x + 1 / 2))

theorem roundHalfUp_le {x : ℚ} {n : ℤ} (h : x ≤ n) : roundHalfUp x ≤ n := by
  unfold roundHalfUp
  have hc : x + 1 / 2 < ((n + 1 : ℤ) : ℚ) := by
    have : ((n + 1 : ℤ) : ℚ) = (n : ℚ) + 1 := by push_cast; ring
    linarith
  have h2 : ⌊x + 1 / 2⌋ < n + 1 := Int.floor_lt.mpr hc
  omega

theorem roundTo2_zero : roundTo2 0 = 0 := by
  unfold roundTo2
  rw [show ((0 : ℚ) * 100) = 0 by ring,
    roundHalfUp_eq_of (z := 0) (by norm_num) (by norm_num)]
  norm_num

theorem storeTeamInsights_length_le {α : Type} (storage : String → List α) (teamId : String)
    (insight : α) (h : ∀ id, (storage id).length ≤ 10) :
    ∀ id, (storeTeamInsights storage teamId insight id).length ≤ 10 := by
  intro id
  simp only [storeTeamInsights]
  split
  · split
    · simp only [List.length_drop]
      omega
    · rename_i hlen
      simp only [List.length_append, List.length_cons, List.length_nil] at hlen ⊢
      omega
  · exact h id

theorem foldl_storeTeamInsights_length_le {α : Type} (inserts : List (String × α))
    (st : String → List α) (h : ∀ id, (st id).length ≤ 10) :
    ∀ id, ((inserts.foldl (fun s p => storeTeamInsights s p.1 p.2) st) id).length ≤ 10 := by
  induction inserts generalizing st with
  | nil => exact h
  | cons p ps ih => exact ih _ (storeTeamInsights_length_le st p.1 p.2 h)

/-! ### Claim theorems -/

/-- C4: for every team and every sequence of insight insertions, the
stored per-team history has at most 10 entries after each insertion
completes, and an insertion into a full history evicts exactly the oldest
entry (the head), preserving the relative order of the survivors and
appending the new entry last. -/
theorem teamInsights_history_bounded_fifo {α : Type} (inserts : List (String × α))
    (teamId : String) :
    (applyInsertions inserts teamId).length ≤ 10 ∧
    ∀ insight : α,
      applyInsertions (inserts ++ [(teamId, insight)]) teamId =
        if (applyInsertions inserts teamId).length < 10 then
          applyInsertions inserts teamId ++ [insight]
        else (applyInsertions inserts teamId).drop 1 ++ [insight] := by
  have hb : ∀ id, (applyInsertions inserts id).length ≤ 10 :=
    foldl_storeTeamInsights_length_le inserts _ (fun _ => by simp)
  refine ⟨hb teamId, fun insight => ?_⟩
  have hstep : applyInsertions (inserts ++ [(teamId, insight)]) =
      storeTeamInsights (applyInsertions inserts) teamId insight := by
    unfold applyInsertions
    rw [List.foldl_append]
    rfl
  rw [hstep]
  simp only [storeTeamInsights, beq_self_eq_true, if_true]
  by_cases hlt : (applyInsertions inserts teamId).length < 10
  · have hcond : ¬ 10 < (applyInsertions inserts teamId ++ [insight]).length := by
      simp only [List.length_append, List.length_cons, List.length_nil]
      omega
    rw [if_pos hlt, if_neg hcond]
  · have h10 : (applyInsertions inserts teamId).length = 10 := by
      have := hb teamId; omega
    have hlen : (applyInsertions inserts teamId ++ [insight]).length = 11 := by
      simp only [List.length_append, List.length_cons, List.length_nil]
      omega
    have hcond : 10 < (applyInsertions inserts teamId ++ [insight]).length := by omega
    rw [if_neg hlt, if_pos hcond, hlen]
    rw [show (11 : Nat) - 10 = 1 from rfl]
    rw [List.drop_append_of_le_length (by omega)]

/-- C9: on any text containing `.innerHTML` the security scan yields
exactly one issue of the XSS category, that issue has High severity, and
the remaining checks are independent: whenever their conditions hold their
issues are also present. -/
theorem securityScan_innerHTML_single_high_issue (code : List Char)
    (h : includesSub ".innerHTML".data code = true) :
    ((getSecurityIssues code).filter (fun i => i.type == "XSS Vulnerability")).length = 1 ∧
    (∀ i ∈ getSecurityIssues code, i.type = "XSS Vulnerability" → i.severity = "High") ∧
    ((includesSub "+".data code &&
        (includesSub "SELECT".data code || includesSub "INSERT".data code)) = true →
      sqlInjectionIssue ∈ getSecurityIssues code) ∧
    ((includesSub "window.location".data code || includesSub "redirect(".data code) = true →
      openRedirectIssue ∈ getSecurityIssues code) := by
  unfold getSecurityIssues
  cases h2 : (includesSub "+".data code &&
      (includesSub "SELECT".data code || includesSub "INSERT".data code)) <;>
    cases h3 : (includesSub "window.location".data code ||
        includesSub "redirect(".data code) <;>
      simp [h, h2, h3] <;> decide

/-- C10: the quality scorer is total: for every input it either returns
the value computed by its `try` body or, had the body signalled, the
fallback result `score = 0` with empty metrics; no exception escapes. -/
theorem getCodeQualityScore_total_fallback (code : List Char) :
    (∃ r, getCodeQualityScoreBody code = Except.ok r ∧ getCodeQualityScore code = r) ∨
    getCodeQualityScore code = { score := 0, metrics := none } := by
  cases hb : getCodeQualityScoreBody code with
  | ok r => exact Or.inl ⟨r, rfl, by unfold getCodeQualityScore; rw [hb]⟩
  | error e => exact Or.inr (by unfold getCodeQualityScore; rw [hb])

/-- C7: the complexity metric equals
`min ((1 + total whole-word keyword occurrences) * 10) 100` for every
text, and on `"function f(){ if(a){} if(b){} }"` it is 30. -/
theorem calculateComplexity_keyword_formula :
    (∀ code : List Char,
      calculateComplexity code =
        min ((1 + (controlFlowKeywords.map fun kw => countRe (wordRegex kw) code).sum) * 10)
          100) ∧
    calculateComplexity "function f()\x7b if(a)\x7b\x7d if(b)\x7b\x7d \x7d".data = 30 := by
  constructor
  · intro code
    simp only [calculateComplexity, controlFlowKeywords, List.foldl_cons, List.foldl_nil,
      List.map_cons, List.map_nil, List.sum_cons, List.sum_nil]
    omega
  · decide

/-- C8 counterexample: for a `languageId` without a catalog entry the
language-pattern analyzer emits no issues at all, even on text that the
default (javascript) catalog flags. -/
theorem analyzeLanguageSpecific_unknown_returns_empty :
    analyzeLanguageSpecific "var x = 1;\nconsole.log(x);".data "ruby" = [] ∧
    analyzeLanguageSpecific "var x = 1;\nconsole.log(x);".data "javascript" ≠ [] := by
  decide

/-- C8 (amended): for a `languageId` with no catalog entry
`analyzeLanguageSpecific` returns no language-pattern issues (no
fallback), while the custom style-rule checker is the component that falls
back to the javascript catalog. -/
theorem patternDetector_unknown_language_behaviour (code : List Char) (language : String)
    (h1 : languageRulesFor language = none) (h2 : styleRulesFor language = none) :
    analyzeLanguageSpecific code language = [] ∧
    checkCustomStyleRules code language = checkCustomStyleRules code "javascript" := by
  constructor
  · unfold analyzeLanguageSpecific
    rw [h1]
  · unfold checkCustomStyleRules
    rw [h2]
    rfl

/-- Witness for C8: instantiated at `languageId = "ruby"`. -/
theorem patternDetector_unknown_language_behaviour_witness :
    analyzeLanguageSpecific "console.log(1)".data "ruby" = [] ∧
    checkCustomStyleRules "console.log(1)".data "ruby" =
      checkCustomStyleRules "console.log(1)".data "javascript" :=
  patternDetector_unknown_language_behaviour "console.log(1)".data "ruby" rfl rfl

/-- C5: the estimated performance gain is never negative, is 0 whenever
the before-profile's complexity score is 0, and is exactly 0 on identical
before/after texts. -/
theorem performanceGain_nonneg_zero (originalCode optimizedCode : List Char) :
    0 ≤ (estimatePerformanceImpact originalCode optimizedCode).estimatedPerformanceGain ∧
    ((estimatePerformanceImpact originalCode optimizedCode).before.complexityScore = 0 →
      (estimatePerformanceImpact originalCode optimizedCode).estimatedPerformanceGain = 0) ∧
    (originalCode = optimizedCode →
      (estimatePerformanceImpact originalCode optimizedCode).estimatedPerformanceGain = 0) := by
  have hg : (estimatePerformanceImpact originalCode optimizedCode).estimatedPerformanceGain =
      calculatePerformanceGain (analyzeCodeForPerformance originalCode)
        (analyzeCodeForPerformance optimizedCode) := rfl
  have hbefore : (estimatePerformanceImpact originalCode optimizedCode).before =
      analyzeCodeForPerformance originalCode := rfl
  refine ⟨?_, ?_, ?_⟩
  · rw [hg]
    unfold calculatePerformanceGain
    split
    · exact le_refl 0
    · exact le_max_left 0 _
  · intro h
    rw [hbefore] at h
    rw [hg]
    unfold calculatePerformanceGain
    rw [if_pos h]
  · intro h
    subst h
    rw [hg]
    unfold calculatePerformanceGain
    split
    · rfl
    · simp [sub_self, zero_div, zero_mul, roundTo2_zero]

/-- Witness for C5: concrete identical texts give gain 0; a concrete pair
gives a non-negative gain. -/
theorem performanceGain_nonneg_zero_witness :
    (estimatePerformanceImpact "for (i)".data "for (i)".data).estimatedPerformanceGain = 0 ∧
    0 ≤ (estimatePerformanceImpact "for (i)".data "while (j)".data).estimatedPerformanceGain :=
  ⟨(performanceGain_nonneg_zero "for (i)".data "for (i)".data).2.2 rfl,
   (performanceGain_nonneg_zero "for (i)".data "while (j)".data).1⟩

theorem severity_filter_partition (l : List SecIssue)
    (h : ∀ i ∈ l, i.severity = "High" ∨ i.severity = "Medium" ∨ i.severity = "Low") :
    (l.filter (fun i => i.severity == "High")).length +
      (l.filter (fun i => i.severity == "Medium")).length +
      (l.filter (fun i => i.severity == "Low")).length = l.length := by
  induction l with
  | nil => simp
  | cons a t ih =>
    have ha := h a (List.mem_cons_self a t)
    have ht : ∀ i ∈ t, i.severity = "High" ∨ i.severity = "Medium" ∨ i.severity = "Low" :=
      fun i hi => h i (List.mem_cons_of_mem a hi)
    rcases ha with h1 | h1 | h1 <;>
      simp [List.filter_cons, h1, ← ih ht] <;> omega

theorem formatted_severity_filter_length (issues : List SecIssue) (sev : String) :
    ((formatIssuesWithSeverity issues).filter (fun i => i.issue.severity == sev)).length =
      (issues.filter (fun i => i.severity == sev)).length := by
  unfold formatIssuesWithSeverity
  rw [List.filter_map, List.length_map]
  rfl

theorem formatted_length (issues : List SecIssue) :
    (formatIssuesWithSeverity issues).length = issues.length := by
  unfold formatIssuesWithSeverity
  exact List.length_map issues _

/-- C1 counterexample: a review with one High-severity AI performance
finding.  `totalIssues` is 0 while the detail partitions hold one issue,
and the severity breakdown sums to 1 ≠ `totalIssues`. -/
theorem report_totalIssues_invariant_fails :
    (createStructuredOutput (structureCodeReviewOutput
        { qualityScore := { score := 50, metrics := none }
          securityIssues := []
          dependencyIssues := []
          aiReview :=
            { bugs := some []
              performance := some
                [{ type := "Performance", description := "d", severity := "High",
                   suggestion := "s" }]
              refactor := some [] } })).summary.totalIssues = 0 ∧
    ((createStructuredOutput (structureCodeReviewOutput
        { qualityScore := { score := 50, metrics := none }
          securityIssues := []
          dependencyIssues := []
          aiReview :=
            { bugs := some []
              performance := some
                [{ type := "Performance", description := "d", severity := "High",
                   suggestion := "s" }]
              refactor := some [] } })).details.security.length +
      (createStructuredOutput (structureCodeReviewOutput
        { qualityScore := { score := 50, metrics := none }
          securityIssues := []
          dependencyIssues := []
          aiReview :=
            { bugs := some []
              performance := some
                [{ type := "Performance", description := "d", severity := "High",
                   suggestion := "s" }]
              refactor := some [] } })).details.dependencies.length +
      (createStructuredOutput (structureCodeReviewOutput
        { qualityScore := { score := 50, metrics := none }
          securityIssues := []
          dependencyIssues := []
          aiReview :=
            { bugs := some []
              performance := some
                [{ type := "Performance", description := "d", severity := "High",
                   suggestion := "s" }]
              refactor := some [] } })).details.aiBugs.length +
      (createStructuredOutput (structureCodeReviewOutput
        { qualityScore := { score := 50, metrics := none }
          securityIssues := []
          dependencyIssues := []
          aiReview :=
            { bugs := some []
              performance := some
                [{ type := "Performance", description := "d", severity := "High",
                   suggestion := "s" }]
              refactor := some [] } })).details.aiPerformance.length +
      (createStructuredOutput (structureCodeReviewOutput
        { qualityScore := { score := 50, metrics := none }
          securityIssues := []
          dependencyIssues := []
          aiReview :=
            { bugs := some []
              performance := some
                [{ type := "Performance", description := "d", severity := "High",
                   suggestion := "s" }]
              refactor := some [] } })).details.aiRefactor.length = 1) ∧
    ((createStructuredOutput (structureCodeReviewOutput
        { qualityScore := { score := 50, metrics := none }
          securityIssues := []
          dependencyIssues := []
          aiReview :=
            { bugs := some []
              performance := some
                [{ type := "Performance", description := "d", severity := "High",
                   suggestion := "s" }]
              refactor := some [] } })).summary.severityBreakdown.high +
      (createStructuredOutput (structureCodeReviewOutput
        { qualityScore := { score := 50, metrics := none }
          securityIssues := []
          dependencyIssues := []
          aiReview :=
            { bugs := some []
              performance := some
                [{ type := "Performance", description := "d", severity := "High",
                   suggestion := "s" }]
              refactor := some [] } })).summary.severityBreakdown.medium +
      (createStructuredOutput (structureCodeReviewOutput
        { qualityScore := { score := 50, metrics := none }
          securityIssues := []
          dependencyIssues := []
          aiReview :=
            { bugs := some []
              performance := some
                [{ type := "Performance", description := "d", severity := "High",
                   suggestion := "s" }]
              refactor := some [] } })).summary.severityBreakdown.low = 1) := by
  decide

theorem structureCRO_aiBugs (rd : ReviewData) :
    (structureCodeReviewOutput rd).aiAnalysis.bugs =
      formatIssuesWithSeverity (rd.aiReview.bugs.getD []) := by
  cases hb : rd.aiReview.bugs <;> simp [structureCodeReviewOutput, formatIssuesWithSeverity, hb]

theorem structureCRO_aiPerformance (rd : ReviewData) :
    (structureCodeReviewOutput rd).aiAnalysis.performance =
      formatIssuesWithSeverity (rd.aiReview.performance.getD []) := by
  cases hb : rd.aiReview.performance <;>
    simp [structureCodeReviewOutput, formatIssuesWithSeverity, hb]

theorem structureCRO_aiRefactor (rd : ReviewData) :
    (structureCodeReviewOutput rd).aiAnalysis.refactor =
      formatIssuesWithSeverity (rd.aiReview.refactor.getD []) := by
  cases hb : rd.aiReview.refactor <;>
    simp [structureCodeReviewOutput, formatIssuesWithSeverity, hb]

theorem structureCRO_totalIssues (rd : ReviewData) :
    (structureCodeReviewOutput rd).summary.totalIssues =
      rd.securityIssues.length + rd.dependencyIssues.length +
        (rd.aiReview.bugs.getD []).length := by
  cases hb : rd.aiReview.bugs <;> simp [structureCodeReviewOutput, hb]

theorem countIssuesBySeverity_as_filters (rd : ReviewData) (sev : String) :
    countIssuesBySeverity (structureCodeReviewOutput rd) sev =
      (rd.securityIssues.filter (fun i => i.severity == sev)).length +
      (rd.dependencyIssues.filter (fun i => i.severity == sev)).length +
      ((rd.aiReview.bugs.getD []).filter (fun i => i.severity == sev)).length +
      ((rd.aiReview.performance.getD []).filter (fun i => i.severity == sev)).length +
      ((rd.aiReview.refactor.getD []).filter (fun i => i.severity == sev)).length := by
  unfold countIssuesBySeverity
  rw [structureCRO_aiBugs, structureCRO_aiPerformance, structureCRO_aiRefactor,
    show (structureCodeReviewOutput rd).security =
      formatIssuesWithSeverity rd.securityIssues from rfl,
    show (structureCodeReviewOutput rd).dependencies =
      formatIssuesWithSeverity rd.dependencyIssues from rfl,
    formatted_severity_filter_length, formatted_severity_filter_length,
    formatted_severity_filter_length, formatted_severity_filter_length,
    formatted_severity_filter_length]

/-- C1 (amended): in the structured report, `summary.totalIssues` counts
only the security, dependency and AI-bug partitions (AI performance and
refactor are left out), while `severityBreakdown.high + .medium + .low`
counts, over all five partitions, every issue whose severity is one of
High/Medium/Low — so the two agree only when the performance and refactor
partitions are empty. -/
theorem report_breakdown_totalIssues (reviewData : ReviewData)
    (h : ∀ i ∈ reviewData.securityIssues ++ reviewData.dependencyIssues ++
        reviewData.aiReview.bugs.getD [] ++ reviewData.aiReview.performance.getD [] ++
        reviewData.aiReview.refactor.getD [],
      i.severity = "High" ∨ i.severity = "Medium" ∨ i.severity = "Low") :
    (createStructuredOutput
        (structureCodeReviewOutput reviewData)).summary.severityBreakdown.high +
      (createStructuredOutput
        (structureCodeReviewOutput reviewData)).summary.severityBreakdown.medium +
      (createStructuredOutput
        (structureCodeReviewOutput reviewData)).summary.severityBreakdown.low =
      reviewData.securityIssues.length + reviewData.dependencyIssues.length +
        (reviewData.aiReview.bugs.getD []).length +
        (reviewData.aiReview.performance.getD []).length +
        (reviewData.aiReview.refactor.getD []).length ∧
    (createStructuredOutput (structureCodeReviewOutput reviewData)).summary.totalIssues =
      reviewData.securityIssues.length + reviewData.dependencyIssues.length +
        (reviewData.aiReview.bugs.getD []).length := by
  have hsec : ∀ i ∈ reviewData.securityIssues,
      i.severity = "High" ∨ i.severity = "Medium" ∨ i.severity = "Low" :=
    fun i hi => h i (by simp [List.mem_append, hi])
  have hdep : ∀ i ∈ reviewData.dependencyIssues,
      i.severity = "High" ∨ i.severity = "Medium" ∨ i.severity = "Low" :=
    fun i hi => h i (by simp [List.mem_append, hi])
  have hbugs : ∀ i ∈ reviewData.aiReview.bugs.getD [],
      i.severity = "High" ∨ i.severity = "Medium" ∨ i.severity = "Low" :=
    fun i hi => h i (by simp [List.mem_append, hi])
  have hperf : ∀ i ∈ reviewData.aiReview.performance.getD [],
      i.severity = "High" ∨ i.severity = "Medium" ∨ i.severity = "Low" :=
    fun i hi => h i (by simp [List.mem_append, hi])
  have href : ∀ i ∈ reviewData.aiReview.refactor.getD [],
      i.severity = "High" ∨ i.severity = "Medium" ∨ i.severity = "Low" :=
    fun i hi => h i (by simp [List.mem_append, hi])
  constructor
  · have ehigh : (createStructuredOutput
        (structureCodeReviewOutput reviewData)).summary.severityBreakdown.high =
        countIssuesBySeverity (structureCodeReviewOutput reviewData) "High" := rfl
    have emed : (createStructuredOutput
        (structureCodeReviewOutput reviewData)).summary.severityBreakdown.medium =
        countIssuesBySeverity (structureCodeReviewOutput reviewData) "Medium" := rfl
    have elow : (createStructuredOutput
        (structureCodeReviewOutput reviewData)).summary.severityBreakdown.low =
        countIssuesBySeverity (structureCodeReviewOutput reviewData) "Low" := rfl
    rw [ehigh, emed, elow, countIssuesBySeverity_as_filters,
      countIssuesBySeverity_as_filters, countIssuesBySeverity_as_filters]
    have p1 := severity_filter_partition reviewData.securityIssues hsec
    have p2 := severity_filter_partition reviewData.dependencyIssues hdep
    have p3 := severity_filter_partition (reviewData.aiReview.bugs.getD []) hbugs
    have p4 := severity_filter_partition (reviewData.aiReview.performance.getD []) hperf
    have p5 := severity_filter_partition (reviewData.aiReview.refactor.getD []) href
    omega
  · have et : (createStructuredOutput
        (structureCodeReviewOutput reviewData)).summary.totalIssues =
        (structureCodeReviewOutput reviewData).summary.totalIssues := rfl
    rw [et, structureCRO_totalIssues]

/-- Witness for C1: instantiated at a review with one High security issue
and no AI partitions. -/
theorem report_breakdown_totalIssues_witness :
    (createStructuredOutput (structureCodeReviewOutput
        { qualityScore := { score := 0, metrics := none }
          securityIssues := [xssIssue]
          dependencyIssues := []
          aiReview := { bugs := none, performance := none,
                        refactor := none } })).summary.severityBreakdown.high +
      (createStructuredOutput (structureCodeReviewOutput
        { qualityScore := { score := 0, metrics := none }
          securityIssues := [xssIssue]
          dependencyIssues := []
          aiReview := { bugs := none, performance := none,
                        refactor := none } })).summary.severityBreakdown.medium +
      (createStructuredOutput (structureCodeReviewOutput
        { qualityScore := { score := 0, metrics := none }
          securityIssues := [xssIssue]
          dependencyIssues := []
          aiReview := { bugs := none, performance := none,
                        refactor := none } })).summary.severityBreakdown.low =
      ([xssIssue] : List SecIssue).length + ([] : List SecIssue).length +
        ((none : Option (List SecIssue)).getD []).length +
        ((none : Option (List SecIssue)).getD []).length +
        ((none : Option (List SecIssue)).getD []).length ∧
    (createStructuredOutput (structureCodeReviewOutput
        { qualityScore := { score := 0, metrics := none }
          securityIssues := [xssIssue]
          dependencyIssues := []
          aiReview := { bugs := none, performance := none,
                        refactor := none } })).summary.totalIssues =
      ([xssIssue] : List SecIssue).length + ([] : List SecIssue).length +
        ((none : Option (List SecIssue)).getD []).length :=
  report_breakdown_totalIssues
    { qualityScore := { score := 0, metrics := none }
      securityIssues := [xssIssue]
      dependencyIssues := []
      aiReview := { bugs := none, performance := none, refactor := none } }
    (by decide)

theorem splitOnChar_ne_nil (sep : Char) (l : List Char) : splitOnChar sep l ≠ [] := by
  cases l with
  | nil => simp [splitOnChar]
  | cons c cs =>
    unfold splitOnChar
    split
    · simp
    · split <;> simp

theorem splitOnChar_length_pos (sep : Char) (l : List Char) :
    0 < (splitOnChar sep l).length :=
  List.length_pos.mpr (splitOnChar_ne_nil sep l)

theorem dedup_length_pos (l : List (List Char)) (h : l ≠ []) : 0 < l.dedup.length := by
  obtain ⟨a, ha⟩ := List.exists_mem_of_ne_nil l h
  exact List.length_pos.mpr (List.ne_nil_of_mem (List.mem_dedup.mpr ha))

theorem calculateDuplication_nonneg_le (code : List Char) :
    0 ≤ calculateDuplication code ∧ calculateDuplication code ≤ 100 := by
  simp only [calculateDuplication]
  have hL : 0 < (splitOnChar '\n' code).length := splitOnChar_length_pos _ _
  have hD : 0 < ((splitOnChar '\n' code).dedup).length :=
    dedup_length_pos _ (splitOnChar_ne_nil _ _)
  have hDL : ((splitOnChar '\n' code).dedup).length ≤ (splitOnChar '\n' code).length :=
    (List.dedup_sublist _).length_le
  have hLq : (0 : ℚ) < ((splitOnChar '\n' code).length : ℚ) := by exact_mod_cast hL
  have hDLq : (((splitOnChar '\n' code).dedup).length : ℚ) ≤
      ((splitOnChar '\n' code).length : ℚ) := by exact_mod_cast hDL
  have hnum : (0 : ℚ) ≤ ((splitOnChar '\n' code).length : ℚ) -
      ((splitOnChar '\n' code).dedup).length := by linarith
  constructor
  · exact roundHalfUp_nonneg
      (mul_nonneg (div_nonneg hnum (le_of_lt hLq)) (by norm_num))
  · apply roundHalfUp_le
    have hdiv : (((splitOnChar '\n' code).length : ℚ) -
        ((splitOnChar '\n' code).dedup).length) / ((splitOnChar '\n' code).length : ℚ) ≤ 1 := by
      rw [div_le_one hLq]
      linarith
    have h100 := mul_le_mul_of_nonneg_right hdiv (by norm_num : (0 : ℚ) ≤ 100)
    push_cast
    linarith

theorem calculateReadability_nonneg_le (code : List Char) :
    0 ≤ calculateReadability code ∧ calculateReadability code ≤ 100 := by
  simp only [calculateReadability]
  have havg : (0 : ℚ) ≤ (code.length : ℚ) / ((splitOnChar '\n' code).length : ℚ) := by
    positivity
  have hmin : (0 : ℚ) ≤
      min ((code.length : ℚ) / ((splitOnChar '\n' code).length : ℚ)) 100 :=
    le_min havg (by norm_num)
  constructor
  · exact le_max_right _ 0
  · apply max_le ?_ (by norm_num)
    apply roundHalfUp_le
    split <;> push_cast <;> linarith

theorem calculateComplexity_le_100 (code : List Char) : calculateComplexity code ≤ 100 := by
  simp only [calculateComplexity]
  exact Nat.min_le_right _ _

/-- Concrete evaluation of the quality scorer on the empty string. -/
theorem getCodeQualityScore_nil_eval :
    getCodeQualityScore [] =
      { score := 65
        metrics := some
          { linesOfCode := 1, complexity := 10, duplication := 0, readability := 80 } } := by
  have hsplit : splitOnChar '\n' ([] : List Char) = [[]] := rfl
  have hcomp : calculateComplexity ([] : List Char) = 10 := by decide
  have hdedup : ([[]] : List (List Char)).dedup = [[]] := rfl
  have hdup : calculateDuplication ([] : List Char) = 0 := by
    simp only [calculateDuplication, hsplit, hdedup]
    norm_num
    exact roundHalfUp_eq_of (z := 0) (by norm_num) (by norm_num)
  have hread : calculateReadability ([] : List Char) = 80 := by
    simp only [calculateReadability, hsplit]
    norm_num
    rw [roundHalfUp_eq_of (z := 80) (by norm_num) (by norm_num)]
    exact max_eq_left (by norm_num)
  have hb : getCodeQualityScoreBody [] = Except.ok
      { score := 65
        metrics := some
          { linesOfCode := 1, complexity := 10, duplication := 0, readability := 80 } } := by
    simp only [getCodeQualityScoreBody, hsplit, hcomp, hdup, hread]
    norm_num
    exact roundHalfUp_eq_of (z := 65) (by norm_num) (by norm_num)
  unfold getCodeQualityScore
  rw [hb]

/-- C3 counterexample: on the empty string the score is 65, not 0, and no
metric takes a default value (`linesOfCode = 1`, `complexity = 10`,
`readability = 80`). -/
theorem qualityScorer_empty_text_score_not_zero :
    (getCodeQualityScore []).score = 65 ∧ (getCodeQualityScore []).score ≠ 0 := by
  rw [getCodeQualityScore_nil_eval]
  exact ⟨rfl, by decide⟩

/-- C3 (amended): the quality scorer applied to the empty string does not
fault and returns score 65 with metrics `linesOfCode = 1`,
`complexity = 10`, `duplication = 0`, `readability = 80`. -/
theorem qualityScorer_empty_text :
    getCodeQualityScore [] =
      { score := 65
        metrics := some
          { linesOfCode := 1, complexity := 10, duplication := 0, readability := 80 } } :=
  getCodeQualityScore_nil_eval

/-- C6 counterexample: a 101-newline text yields `linesOfCode = 102`, so
the `linesOfCode` sub-metric of the returned QualityMetrics exceeds 100. -/
theorem qualityMetrics_linesOfCode_exceeds_100 :
    ((getCodeQualityScore (List.replicate 101 '\n')).metrics.map
        (fun m => m.linesOfCode)) = some 102 ∧ ¬(102 ≤ 100) := by
  constructor
  · decide
  · decide

/-- C6 (amended): the score equals
`round(0.4 · readability + 0.3 · complexity + 0.3 · (100 − duplication))`
and lies in [0, 100]; the `complexity`, `duplication` and `readability`
sub-metrics lie in [0, 100]; `linesOfCode` is the (unbounded) line count.
-/
theorem qualityScore_formula_and_bounds (code : List Char) :
    ∃ m : QualityMetrics,
      (getCodeQualityScore code).metrics = some m ∧
      (getCodeQualityScore code).score =
        roundHalfUp (0.4 * (m.readability : ℚ) + 0.3 * (m.complexity : ℚ) +
          0.3 * (100 - (m.duplication : ℚ))) ∧
      0 ≤ (getCodeQualityScore code).score ∧
      (getCodeQualityScore code).score ≤ 100 ∧
      m.complexity ≤ 100 ∧ 0 ≤ m.duplication ∧ m.duplication ≤ 100 ∧
      0 ≤ m.readability ∧ m.readability ≤ 100 ∧
      m.linesOfCode = (splitOnChar '\n' code).length := by
  have hscore : (getCodeQualityScore code).score =
      roundHalfUp ((calculateReadability code : ℚ) * 0.4 +
        (calculateComplexity code : ℚ) * 0.3 +
        (100 - (calculateDuplication code : ℚ)) * 0.3) := rfl
  have hr := calculateReadability_nonneg_le code
  have hd := calculateDuplication_nonneg_le code
  have hc := calculateComplexity_le_100 code
  have hrq0 : (0 : ℚ) ≤ (calculateReadability code : ℚ) := by exact_mod_cast hr.1
  have hrq1 : (calculateReadability code : ℚ) ≤ 100 := by exact_mod_cast hr.2
  have hdq0 : (0 : ℚ) ≤ (calculateDuplication code : ℚ) := by exact_mod_cast hd.1
  have hdq1 : (calculateDuplication code : ℚ) ≤ 100 := by exact_mod_cast hd.2
  have hcq0 : (0 : ℚ) ≤ (calculateComplexity code : ℚ) := by positivity
  have hcq1 : (calculateComplexity code : ℚ) ≤ 100 := by exact_mod_cast hc
  refine ⟨{ linesOfCode := (splitOnChar '\n' code).length
            complexity := calculateComplexity code
            duplication := calculateDuplication code
            readability := calculateReadability code },
    rfl, ?_, ?_, ?_, hc, hd.1, hd.2, hr.1, hr.2, rfl⟩
  · rw [hscore]
    congr 1
    ring
  · rw [hscore]
    exact roundHalfUp_nonneg (by linarith)
  · rw [hscore]
    apply roundHalfUp_le
    push_cast
    linarith

/-- Witness for C9: a text containing `.innerHTML` together with a SQL
pattern: the XSS issue appears exactly once and the SQL issue is present.
-/
theorem securityScan_innerHTML_single_high_issue_witness :
    ((getSecurityIssues ".innerHTML + SELECT".data).filter
        (fun i => i.type == "XSS Vulnerability")).length = 1 ∧
    sqlInjectionIssue ∈ getSecurityIssues ".innerHTML + SELECT".data :=
  ⟨(securityScan_innerHTML_single_high_issue ".innerHTML + SELECT".data (by decide)).1,
   (securityScan_innerHTML_single_high_issue ".innerHTML + SELECT".data (by decide)).2.2.1
     (by decide)⟩

theorem lookupCount_bumpCount (m : List (String × Nat)) (k t : String) :
    lookupCount (bumpCount m k) t =
      if t = k then lookupCount m t + 1 else lookupCount m t := by
  induction m with
  | nil =>
    by_cases h : t = k
    · subst h
      simp [bumpCount, lookupCount]
    · simp [bumpCount, lookupCount, beq_iff_eq, h, Ne.symm h]
  | cons hd tl ih =>
    obtain ⟨k0, c0⟩ := hd
    by_cases h1 : k0 = k
    · subst h1
      by_cases h2 : t = k0
      · subst h2
        simp [bumpCount, lookupCount]
      · simp [bumpCount, lookupCount, beq_iff_eq, h2, Ne.symm h2]
    · by_cases h2 : t = k0
      · subst h2
        simp [bumpCount, lookupCount, beq_iff_eq, h1]
      · simp [bumpCount, lookupCount, beq_iff_eq, h1, Ne.symm h2, ih]

theorem lookupCount_of_mem :
    ∀ {m : List (String × Nat)}, (keysOf m).Nodup →
      ∀ {t : String} {c : Nat}, (t, c) ∈ m → lookupCount m t = c := by
  intro m
  induction m with
  | nil => intro _ t c hm; cases hm
  | cons hd tl ih =>
    obtain ⟨k0, c0⟩ := hd
    intro hnd t c hm
    have hnd2 : (k0 :: keysOf tl).Nodup := hnd
    have hhead : k0 ∉ keysOf tl := (List.nodup_cons.mp hnd2).1
    have htail : (keysOf tl).Nodup := (List.nodup_cons.mp hnd2).2
    rcases List.mem_cons.mp hm with heq | hmem
    · injection heq with h1 h2
      subst h1; subst h2
      simp [lookupCount]
    · have ht : t ∈ keysOf tl := List.mem_map.mpr ⟨(t, c), hmem, rfl⟩
      have hne : k0 ≠ t := fun e => hhead (e ▸ ht)
      simpa [lookupCount, beq_iff_eq, hne] using ih htail hmem

theorem mem_of_lookupCount_pos :
    ∀ {m : List (String × Nat)} {t : String},
      0 < lookupCount m t → (t, lookupCount m t) ∈ m := by
  intro m
  induction m with
  | nil => intro t h; simp [lookupCount] at h
  | cons hd tl ih =>
    obtain ⟨k0, c0⟩ := hd
    intro t h
    by_cases h1 : k0 = t
    · subst h1
      simp [lookupCount]
    · simp only [lookupCount, beq_iff_eq, h1, if_false] at h ⊢
      exact List.mem_cons_of_mem _ (ih h)

theorem keysOf_cons (p : String × Nat) (tl : List (String × Nat)) :
    keysOf (p :: tl) = p.1 :: keysOf tl := rfl

theorem keysOf_bumpCount (m : List (String × Nat)) (k : String) :
    keysOf (bumpCount m k) = if k ∈ keysOf m then keysOf m else keysOf m ++ [k] := by
  induction m with
  | nil => simp [bumpCount, keysOf]
  | cons hd tl ih =>
    obtain ⟨k0, c0⟩ := hd
    by_cases h1 : k0 = k
    · subst h1
      simp [bumpCount, keysOf_cons]
    · have hbk : bumpCount ((k0, c0) :: tl) k = (k0, c0) :: bumpCount tl k := by
        simp [bumpCount, beq_iff_eq, h1]
      rw [hbk, keysOf_cons, keysOf_cons, ih]
      by_cases h2 : k ∈ keysOf tl
      · rw [if_pos h2, if_pos (List.mem_cons_of_mem _ h2)]
      · rw [if_neg h2, if_neg (by simp [List.mem_cons, h2, Ne.symm h1])]
        rfl

theorem nodup_keysOf_bumpCount {m : List (String × Nat)} {k : String}
    (h : (keysOf m).Nodup) : (keysOf (bumpCount m k)).Nodup := by
  rw [keysOf_bumpCount]
  split
  · exact h
  · rename_i hk
    rw [List.nodup_append]
    exact ⟨h, List.nodup_singleton k, fun a ha hb => hk ((List.mem_singleton.mp hb) ▸ ha)⟩

theorem nodup_keysOf_foldl (ks : List String) :
    ∀ m : List (String × Nat), (keysOf m).Nodup →
      (keysOf (ks.foldl bumpCount m)).Nodup := by
  induction ks with
  | nil => intro m h; exact h
  | cons k ks ih => intro m h; exact ih _ (nodup_keysOf_bumpCount h)

theorem lookupCount_foldl_bump (ks : List String) :
    ∀ (m : List (String × Nat)) (t : String),
      lookupCount (ks.foldl bumpCount m) t =
        lookupCount m t + (ks.filter (fun k => k == t)).length := by
  induction ks with
  | nil => intro m t; simp
  | cons k ks ih =>
    intro m t
    rw [List.foldl_cons, ih, lookupCount_bumpCount]
    by_cases h : t = k
    · subst h
      simp [List.filter_cons]
      omega
    · simp [List.filter_cons, beq_iff_eq, h, Ne.symm h]

theorem buildFreq_eq (devs : List Developer) :
    buildFreq devs = (devTypeKeys devs).foldl bumpCount [] := by
  unfold buildFreq devTypeKeys
  rw [List.foldl_map, List.foldl_flatten, List.foldl_map]

theorem lookupCount_buildFreq (devs : List Developer) (t : String) :
    lookupCount (buildFreq devs) t = occCount devs t := by
  rw [buildFreq_eq, lookupCount_foldl_bump]
  rw [show lookupCount [] t = 0 from rfl, Nat.zero_add]
  unfold occCount devTypeKeys
  rw [List.filter_map, List.length_map]
  rfl

theorem nodup_keysOf_buildFreq (devs : List Developer) :
    (keysOf (buildFreq devs)).Nodup := by
  rw [buildFreq_eq]
  exact nodup_keysOf_foldl _ _ (by simp [keysOf])

theorem findCommonIssues_spec (devs : List Developer) :
    (∀ e ∈ findCommonIssues devs,
        e.frequency = occCount devs e.type ∧ commonThreshold devs ≤ e.frequency) ∧
    (∀ t : String, commonThreshold devs ≤ occCount devs t → 1 ≤ occCount devs t →
        ∃ e ∈ findCommonIssues devs, e.type = t ∧ e.frequency = occCount devs t) ∧
    (findCommonIssues devs).Pairwise (fun a b => b.frequency ≤ a.frequency) := by
  have hmem : ∀ e : CommonIssue,
      e ∈ findCommonIssues devs ↔
        e ∈ (buildFreq devs).filterMap (fun tc : String × Nat =>
          if commonThreshold devs ≤ tc.2 then
            some { type := tc.1, frequency := tc.2
                   percentage :=
                     roundHalfUp ((tc.2 : ℚ) / (devs.length : ℚ) * 100) }
          else none) := by
    intro e
    exact List.mem_insertionSort _
  refine ⟨?_, ?_, ?_⟩
  · intro e he
    obtain ⟨⟨t, c⟩, hin, hg⟩ := List.mem_filterMap.mp ((hmem e).mp he)
    by_cases hth : commonThreshold devs ≤ c
    · rw [if_pos hth] at hg
      have hc : lookupCount (buildFreq devs) t = c :=
        lookupCount_of_mem (nodup_keysOf_buildFreq devs) hin
      have hocc : c = occCount devs t := by
        rw [← hc, lookupCount_buildFreq]
      cases hg
      exact ⟨hocc, hth⟩
    · rw [if_neg hth] at hg
      cases hg
  · intro t h1 h2
    have hl : lookupCount (buildFreq devs) t = occCount devs t :=
      lookupCount_buildFreq devs t
    have hpos : 0 < lookupCount (buildFreq devs) t := by omega
    have hm := mem_of_lookupCount_pos hpos
    rw [hl] at hm
    refine ⟨{ type := t, frequency := occCount devs t
              percentage :=
                roundHalfUp ((occCount devs t : ℚ) / (devs.length : ℚ) * 100) },
      ?_, rfl, rfl⟩
    rw [hmem]
    exact List.mem_filterMap.mpr ⟨(t, occCount devs t), hm, by rw [if_pos h1]⟩
  · haveI htot : IsTotal CommonIssue (fun a b => b.frequency ≤ a.frequency) :=
      ⟨fun a b => le_total b.frequency a.frequency⟩
    haveI htr : IsTrans CommonIssue (fun a b => b.frequency ≤ a.frequency) :=
      ⟨fun a b c hab hbc => le_trans hbc hab⟩
    exact List.sorted_insertionSort _ _

/-- C2 counterexample: in a batch with 10 distinct authors where the type
`dup` occurs for exactly 2 distinct authors (twice each), `findCommonIssues`
records frequency 4 — the raw occurrence count, not the distinct-author
count 2 — and includes the type, which the claim says must be excluded. -/
theorem commonIssues_two_author_type_included :
    (extractDevelopers twoAuthorBatch).length = 10 ∧
    ((extractDevelopers twoAuthorBatch).filter
        (fun d => d.issues.any (fun i => i.type == "dup"))).length = 2 ∧
    (findCommonIssues (extractDevelopers twoAuthorBatch)).map
        (fun e => (e.type, e.frequency)) = [("dup", 4)] := by
  refine ⟨by decide, by decide, by decide⟩

/-- C2 (amended): the frequency recorded for each issue type is the raw
occurrence count over all authors' accumulated issue lists (not the number
of distinct authors); `commonIssues` contains exactly the types whose
occurrence count reaches `ceil(developerCount × 0.3)`, sorted descending by
frequency; with `developerCount = 10` a type with 3 total occurrences is
included and one with at most 2 total occurrences is excluded, regardless
of how many distinct authors produced them. -/
theorem teamInsight_frequency_is_occurrence_count (prData : List PRRecord) :
    (∀ e ∈ findCommonIssues (extractDevelopers prData),
        e.frequency = occCount (extractDevelopers prData) e.type ∧
        commonThreshold (extractDevelopers prData) ≤ e.frequency) ∧
    (∀ t : String,
        commonThreshold (extractDevelopers prData) ≤ occCount (extractDevelopers prData) t →
        1 ≤ occCount (extractDevelopers prData) t →
        ∃ e ∈ findCommonIssues (extractDevelopers prData),
          e.type = t ∧ e.frequency = occCount (extractDevelopers prData) t) ∧
    (findCommonIssues (extractDevelopers prData)).Pairwise
      (fun a b => b.frequency ≤ a.frequency) :=
  findCommonIssues_spec (extractDevelopers prData)

/-- Witness for C2: on the concrete 10-author batch the type `dup` (total
occurrence count 4 ≥ threshold 3) is reported with frequency 4. -/
theorem teamInsight_frequency_is_occurrence_count_witness :
    ∃ e ∈ findCommonIssues (extractDevelopers twoAuthorBatch),
      e.type = "dup" ∧
      e.frequency = occCount (extractDevelopers twoAuthorBatch) "dup" :=
  (teamInsight_frequency_is_occurrence_count twoAuthorBatch).2.1 "dup" (by decide) (by decide)
